import Mathlib

/-!
Verification development for the batched uncertainty-quantification and
scoring pipeline (src/main_pipeline.py and src/models/generator.py).

Modelling conventions:
* Float values carried by the pipeline are modelled as rationals (ℚ); the
  real-valued denotation of the attention stabilization `log(1 + c)` is
  modelled over ℝ (see `stabValue`).
* Torch tensors are modelled as a shape together with flattened data.
* Python functions that may raise are modelled in `Except String`.
* The external collaborators (dataset loaders, the HF model/tokenizer, the
  analysis modules `likelihoods`, `uncertainty`, `similarity`,
  `correctness`, which are not part of src/) are oracle parameters
  (`GenModel`, `Env` fields); `main_pipeline.py` and
  `models/generator.py` are translated faithfully on top of them.
* `model.generate(..., max_length = input_width + 64)` is the external HF
  generation boundary: it produces the batch's sequences capped at the
  padded input width plus 64 tokens, one score entry per generation step
  (a [batch, vocab] tensor) when `output_scores`, and one attention tensor
  per step when `output_attentions`.  `GenModel` abstracts the model's
  choices (next tokens, logits, attentions, natural stopping step).
-/

/-- A QA sample as produced by the dataset loaders: a record with a
`question` and an optional `prompt` override (`sample.get("prompt", ...)`). -/
structure Sample where
  question : String
  prompt : Option String
deriving DecidableEq

instance : Inhabited Sample := ⟨{ question := "", prompt := none }⟩

/-- A torch tensor of rationals: shape plus flattened data. -/
structure QTensor where
  shape : List Nat
  data : List ℚ
deriving DecidableEq

instance : Inhabited QTensor := ⟨{ shape := [], data := [] }⟩

/-- A raw attention tensor handled by the `for attention in attentions`
loop of `run_generation` (the tensor itself, or its first element when the
step entry is a tuple; both branches apply the same transform). -/
structure AttnTensor where
  shape : List Nat
  data : List ℚ
deriving DecidableEq

/-- A stabilized attention tensor as stored in `item["log_attentions"]`:
the code stores `torch.log(1 + torch.clamp(a, min=1e-10))` elementwise.
We carry the exact clamped arguments `c = clamp(w, min=1e-10)`; the real
value stored for such an entry is `Real.log (1 + c)` (see `stabValue`). -/
structure StabTensor where
  shape : List Nat
  clamped : List ℚ
deriving DecidableEq

/-- The clamp floor `1e-10` of the attention stabilization. -/
def attnEps : ℚ := 1 / 10 ^ 10

/-- The real number denoted by a stored stabilized entry with clamped
argument `c`, namely `log(1 + c)`. -/
noncomputable def stabValue (c : ℚ) : ℝ := Real.log (1 + (c : ℝ))

/-- torch.clamp(a, min=1e-10) followed by log(1+·), elementwise
(models lines 66-70 of src/models/generator.py). -/
def stabilizeAttn (a : AttnTensor) : StabTensor :=
  { shape := a.shape, clamped := a.data.map (fun w => max w attnEps) }

/-- The external generation collaborator: tokenizer plus model.
`nextTok inputs t i` is the token the (greedy, `do_sample=False`) model
emits for sample `i` at generation step `t`; `logit inputs t i v` its raw
score for vocabulary id `v`; `stepAttn inputs t` the attention tensor the
post-processing loop transforms at step `t`; `naturalSteps inputs` the
number of steps after which generation would stop on its own (eos);
`ucompute` abstracts `analysis.uncertainty.compute_uncertainty_scores` as
called from `run_generation` (methods, logits, generated text, input text,
log attentions). -/
structure GenModel where
  vocabSize : Nat
  padId : Nat
  encode : String → List Nat
  decode : List Nat → String
  nextTok : List (List Nat) → Nat → Nat → Nat
  logit : List (List Nat) → Nat → Nat → Nat → ℚ
  stepAttn : List (List Nat) → Nat → AttnTensor
  naturalSteps : List (List Nat) → Nat
  ucompute : List String → Option (List QTensor) → String → String →
      Option (List StabTensor) → Except String (List (String × ℚ))

/-- One element of the list returned by `run_generation`. -/
structure GenOutput where
  inputIds : List Nat
  generatedIds : List Nat
  generatedText : String
  scores : Option (List QTensor)
  logAttentions : Option (List StabTensor)
  uncertaintyScores : Option (List (String × ℚ))
deriving DecidableEq

instance : Inhabited GenOutput :=
  ⟨{ inputIds := [], generatedIds := [], generatedText := "",
     scores := none, logAttentions := none, uncertaintyScores := none }⟩

/-- The prompt used for a sample:
`sample.get("prompt", f"Question: {sample['question']} Answer:")`. -/
def samplePrompt (s : Sample) : String :=
  s.prompt.getD ("Question: " ++ s.question ++ " Answer:")

/-- Right-pad a token row to length `L` with the pad token. -/
def padRow (L pad : Nat) (xs : List Nat) : List Nat :=
  xs ++ List.replicate (L - xs.length) pad

/-- The padded width of a batch of token rows (`input_ids.shape[1]`). -/
def paddedLen (toks : List (List Nat)) : Nat :=
  (toks.map List.length).foldr max 0

/-- `tokenizer(prompts, return_tensors="pt", padding=True)`: every row
padded to the batch's maximal prompt length. -/
def encodeBatch (m : GenModel) (prompts : List String) : List (List Nat) :=
  let toks := prompts.map m.encode
  toks.map (padRow (paddedLen toks) m.padId)

/-- Number of generation steps performed by
`model.generate(..., max_length = inputs width + 64)`: the model's natural
stopping point, capped at 64 extra tokens. -/
def genSteps (m : GenModel) (inputs : List (List Nat)) : Nat :=
  min (m.naturalSteps inputs) 64

/-- The step-`t` entry of `outputs.scores`: a `[batch, vocab]` tensor of
raw scores for the whole batch at that step. -/
def stepScoresTensor (m : GenModel) (inputs : List (List Nat)) (t : Nat) : QTensor :=
  { shape := [inputs.length, m.vocabSize]
    data := ((List.range inputs.length).map (fun i =>
      (List.range m.vocabSize).map (fun v => m.logit inputs t i v))).flatten }

/-- `outputs.scores`: one `[batch, vocab]` tensor per generation step. -/
def batchScores (m : GenModel) (inputs : List (List Nat)) : List QTensor :=
  (List.range (genSteps m inputs)).map (stepScoresTensor m inputs)

/-- The `log_attention` list built from `outputs.attentions`: one
stabilized tensor per generation step. -/
def batchLogAttn (m : GenModel) (inputs : List (List Nat)) : List StabTensor :=
  (List.range (genSteps m inputs)).map (fun t => stabilizeAttn (m.stepAttn inputs t))

/-- The continuation generated for sample `i` (tokens beyond the padded
input), one per generation step. -/
def sampleContinuation (m : GenModel) (inputs : List (List Nat)) (i : Nat) : List Nat :=
  (List.range (genSteps m inputs)).map (fun t => m.nextTok inputs t i)

/-- Translation of `run_generation` (src/models/generator.py, lines 23-96):
encode and pad the batch's prompts, call `model.generate` once with
`max_length = width + 64`, `output_scores = return_logits`,
`output_attentions = return_attentions`, then build one item per sample:
`input_ids`, `generated_ids`, decoded `generated_text`, the (batch-level)
`outputs.scores` when logits were requested, the stabilized
`log_attentions` when attentions were requested, and — only when a
non-empty `uncertainty_methods` list is passed (Python truthiness) — the
`uncertainty_scores` computed by the external scorer, with the raising
case caught and replaced by `{}` (modelled as the empty list). -/
def run_generation (m : GenModel) (batch : List Sample)
    (return_logits return_attentions : Bool)
    (uncertainty_methods : Option (List String)) : List GenOutput :=
  let prompts := batch.map samplePrompt
  let inputs := encodeBatch m prompts
  let L := paddedLen (prompts.map m.encode)
  (List.range batch.length).map (fun i =>
    let gen := inputs.getD i [] ++ sampleContinuation m inputs i
    let text := m.decode (gen.drop L)
    let sc : Option (List QTensor) :=
      if return_logits then some (batchScores m inputs) else none
    let la : Option (List StabTensor) :=
      if return_attentions then some (batchLogAttn m inputs) else none
    { inputIds := inputs.getD i []
      generatedIds := gen
      generatedText := text
      scores := sc
      logAttentions := la
      uncertaintyScores :=
        match uncertainty_methods with
        | none => none
        | some [] => none
        | some ms =>
          match m.ucompute ms sc text (prompts.getD i "") la with
          | Except.ok s => some s
          | Except.error _ => some [] })

/-- Modelled from the spec: `analysis/likelihoods.py` is not part of src/;
per §3 a `LikelihoodTrace` carries per-token log-likelihoods and
per-token entropies (possibly empty). The pipeline treats it opaquely. -/
structure LikelihoodTrace where
  token_log_likelihoods : List ℚ
  entropy_per_token : List ℚ
deriving DecidableEq

/-- Score of an uncertainty result: a finite scalar or the explicit
"undefined" sentinel for an empty trace (spec §3, UncertaintyResult). -/
inductive UScore where
  | undef
  | val (q : ℚ)
deriving DecidableEq

/-- Modelled from the spec: `analysis/uncertainty.py` is not part of src/;
per §3 an UncertaintyResult is a method tag plus a scalar score; the
pipeline only reads `uncertainty['score']`. -/
structure UncertaintyResult where
  method : String
  score : UScore
deriving DecidableEq

/-- Value of the `similarity_score` CSV column: either the string 'NA'
written when `similarity_score is None`, or a numeric score. -/
inductive CsvVal where
  | na
  | num (q : ℚ)
deriving DecidableEq

/-- One result row of `main` (step 5, lines 64-71 of src/main_pipeline.py). -/
structure Row where
  id : Nat
  question : String
  generated_answer : String
  uncertainty : UScore
  correct : Bool
  similarity_score : CsvVal
deriving DecidableEq

/-- One record of the destination CSV file: a header line (with the
field names) or a data row. -/
inductive FileRec where
  | header (fields : List String)
  | row (r : Row)
deriving DecidableEq

/-- `row.keys()`: the CSV field names, in insertion order. -/
def csvFields : List String :=
  ["id", "question", "generated_answer", "uncertainty", "correct", "similarity_score"]

/-- The external collaborators of `main`: the four dataset loaders and the
four per-sample analysis calls, each of which may raise (`Except`). -/
structure Env where
  sampleqa : List Sample
  sciq : String → List Sample
  coqa : List Sample
  triviaqa : List Sample
  computeLikelihoods : GenOutput → Except String LikelihoodTrace
  computeUncertaintyScores : LikelihoodTrace → String → Except String UncertaintyResult
  evaluateResponse : Sample → GenOutput → Except String Bool
  computeSimilarity : GenOutput → String → Except String ℚ

/-- The parsed command-line arguments of `main_pipeline.py`. -/
structure Args where
  model : String
  uncertaintyMethod : String
  similarityMethod : String
  sbertModel : String
  batchSize : Nat
  dataset : String

/-- Step 1 of `main` (lines 27-36): dataset dispatch by name; an unknown
name raises `ValueError(f"Unsupported dataset: {args.dataset}")`. -/
def loadDataset (env : Env) (args : Args) : Except String (List Sample) :=
  if args.dataset = "sampleqa" then Except.ok env.sampleqa
  else if args.dataset = "sciq" then Except.ok (env.sciq args.model)
  else if args.dataset = "coqa" then Except.ok env.coqa
  else if args.dataset = "triviaqa" then Except.ok env.triviaqa
  else Except.error ("Unsupported dataset: " ++ args.dataset)

/-- Recursion core of `batchify`: the fuel argument (instantiated with the
list's length, which bounds the number of slices when the step is
positive) only makes the recursion structural; it never runs out. -/
def batchifyAux (batchSize : Nat) : Nat → List Sample → List (List Sample)
  | 0, _ => []
  | _, [] => []
  | fuel + 1, x :: xs =>
    (x :: xs).take batchSize :: batchifyAux batchSize fuel ((x :: xs).drop batchSize)

/-- `batchify` (lines 20-22): contiguous slices of size `batchSize`
(`data[i:i+batch_size]` for `i in range(0, len(data), batch_size)`); a
step of 0 makes Python's `range` raise, so the run never reaches the loop
body — all pipeline theorems assume `0 < batchSize` accordingly. -/
def batchify (batchSize : Nat) (data : List Sample) : List (List Sample) :=
  if batchSize = 0 then [] else batchifyAux batchSize data.length data

/-- The mutable state of one `main` run: the in-memory `results` list, the
destination file's contents, the `header_written` flag, plus two pieces of
instrumentation — the trace of live generation-output counts (one entry
after each batch's generation call and one after each `del outputs`) and
the number of generation calls issued. -/
structure RunState where
  results : List Row
  fileContents : List FileRec
  headerWritten : Bool
  memTrace : List Nat
  genCalls : Nat
deriving DecidableEq

/-- The state at the start of a run over destination file `init`. -/
def initState (init : List FileRec) : RunState :=
  { results := [], fileContents := init, headerWritten := false,
    memTrace := [], genCalls := 0 }

/-- Step 6 of `main` (lines 75-80): one `open(save_path, mode='a')` —
write — close transaction appending the header first when it has not been
written yet, then the row. -/
def appendRow (st : RunState) (row : Row) : RunState :=
  if st.headerWritten then
    { st with fileContents := st.fileContents ++ [FileRec.row row] }
  else
    { st with
      fileContents := st.fileContents ++ [FileRec.header csvFields, FileRec.row row]
      headerWritten := true }

/-- Steps 2-5 of `main` for one sample (lines 47-71): likelihoods, then
uncertainty, then correctness, then — only when the configured similarity
method is the string `'attention'` — similarity; any raise propagates
(there is no try/except in this loop). On success the assembled row. -/
def processSample (env : Env) (args : Args) (batchIdx i : Nat)
    (sample : Sample) (output : GenOutput) : Except String Row :=
  match env.computeLikelihoods output with
  | Except.error e => Except.error e
  | Except.ok likelihoods =>
  match env.computeUncertaintyScores likelihoods args.uncertaintyMethod with
  | Except.error e => Except.error e
  | Except.ok uncertainty =>
  match env.evaluateResponse sample output with
  | Except.error e => Except.error e
  | Except.ok correctness =>
  match (if args.similarityMethod == "attention" then
           Except.map some (env.computeSimilarity output "attention")
         else Except.ok (none : Option ℚ)) with
  | Except.error e => Except.error e
  | Except.ok similarity =>
  Except.ok
    { id := batchIdx * args.batchSize + i
      question := sample.question
      generated_answer := output.generatedText
      uncertainty := uncertainty.score
      correct := correctness
      similarity_score :=
        match similarity with
        | some s => CsvVal.num s
        | none => CsvVal.na }

/-- The inner `for i, (sample, output) in enumerate(zip(batch, outputs))`
loop of `main`: process each sample, append its row to `results` and to
the destination file; an uncaught exception stops the run, leaving the
state as already persisted. -/
def runSamples (env : Env) (args : Args) (batchIdx : Nat) :
    List (Sample × GenOutput) → Nat → RunState → RunState × Except String Unit
  | [], _, st => (st, Except.ok ())
  | (sample, output) :: rest, i, st =>
    match processSample env args batchIdx i sample output with
    | Except.error e => (st, Except.error e)
    | Except.ok row =>
      runSamples env args batchIdx rest (i + 1)
        (appendRow { st with results := st.results ++ [row] } row)

/-- The outer `for batch_idx, batch in enumerate(batchify(...))` loop of
`main` (lines 43-87): one `run_generation` call per batch (logits always,
attentions only when the similarity method is `'attention'`), then the
per-sample loop, then `del outputs` (live generation outputs drop to 0)
before the next batch. -/
def runBatches (env : Env) (m : GenModel) (args : Args) :
    Nat → List (List Sample) → RunState → RunState × Except String Unit
  | _, [], st => (st, Except.ok ())
  | batchIdx, batch :: rest, st =>
    match runSamples env args batchIdx
        (batch.zip (run_generation m batch true (args.similarityMethod == "attention") none)) 0
        { st with
          genCalls := st.genCalls + 1
          memTrace := st.memTrace ++
            [(run_generation m batch true (args.similarityMethod == "attention") none).length] } with
    | (st2, Except.error e) => (st2, Except.error e)
    | (st2, Except.ok _) =>
      runBatches env m args (batchIdx + 1) rest
        { st2 with memTrace := st2.memTrace ++ [0] }

/-- `main(args)` over an initial destination-file content `init` (the file
is opened in append mode, so a prior run's content persists): load the
dataset (fatal on unknown name, before any batch), then run the batch
loop. Returns the final state and either success or the first uncaught
exception. -/
def mainRun (env : Env) (m : GenModel) (args : Args) (init : List FileRec) :
    RunState × Except String Unit :=
  match loadDataset env args with
  | Except.error e => (initState init, Except.error e)
  | Except.ok dataset =>
    runBatches env m args 0 (batchify args.batchSize dataset) (initState init)

/-- The records a run with result rows `rows` appends to the destination:
nothing when no row was persisted, otherwise one header followed by the
rows in order. -/
def headerRecords (rows : List Row) : List FileRec :=
  if rows.isEmpty then [] else FileRec.header csvFields :: rows.map FileRec.row

/-- Number of header records in a file. -/
def headerCount (f : List FileRec) : Nat :=
  f.countP (fun r => match r with | FileRec.header _ => true | FileRec.row _ => false)

/-- The relation the sink maintains within one run: the destination file is
the initial content `base` followed by exactly the records for the rows
persisted so far, and the `header_written` flag is set exactly when at
least one row has been appended. -/
def sinkInv (base : List FileRec) (st : RunState) : Prop :=
  st.fileContents = base ++ headerRecords st.results ∧
  st.headerWritten = !st.results.isEmpty

deriving instance DecidableEq for Except

/-- A demo dataset of `n` identical QA samples. -/
def demoSamples (n : Nat) : List Sample :=
  (List.range n).map (fun _ => { question := "q", prompt := none })

/-- A tiny concrete generation collaborator: vocabulary of 3 tokens,
single-token prompts, one natural generation step, logits distinguishing
the samples, and an attention tensor holding a near-zero weight. -/
def demoModel : GenModel :=
  { vocabSize := 3
    padId := 0
    encode := fun _ => [1]
    decode := fun _ => "ans"
    nextTok := fun _ _ _ => 2
    logit := fun _ _ i _ => (i : ℚ)
    stepAttn := fun _ _ => { shape := [1], data := [(1 : ℚ) / 10 ^ 12] }
    naturalSteps := fun _ => 1
    ucompute := fun _ _ _ _ _ => Except.error "unused" }

/-- An oracle environment whose scorers always succeed, over `n` sampleqa
samples. -/
def okEnv (n : Nat) : Env :=
  { sampleqa := demoSamples n
    sciq := fun _ => []
    coqa := []
    triviaqa := []
    computeLikelihoods := fun _ =>
      Except.ok { token_log_likelihoods := [], entropy_per_token := [] }
    computeUncertaintyScores := fun _ mth =>
      Except.ok { method := mth, score := UScore.val 0 }
    evaluateResponse := fun _ _ => Except.ok true
    computeSimilarity := fun _ _ => Except.ok 1 }

/-- `okEnv` with a similarity scorer that raises whenever invoked; a run
that completes proves the scorer was never called. -/
def simProbeEnv (n : Nat) : Env :=
  { okEnv n with computeSimilarity := fun _ _ => Except.error "similarity invoked" }

/-- `okEnv` with a likelihood extractor that always raises. -/
def likeFailEnv (n : Nat) : Env :=
  { okEnv n with computeLikelihoods := fun _ => Except.error "likelihood failure" }

/-- Concrete command-line arguments. -/
def demoArgs (ds sim : String) (B : Nat) : Args :=
  { model := "m", uncertaintyMethod := "lastde", similarityMethod := sim,
    sbertModel := "all-MiniLM-L6-v2", batchSize := B, dataset := ds }

/-- A concrete two-sample batch. -/
def twoBatch : List Sample :=
  [{ question := "a", prompt := none }, { question := "b", prompt := none }]

theorem le_paddedLen {toks : List (List Nat)} {xs : List Nat} (h : xs ∈ toks) :
    xs.length ≤ paddedLen toks := by
  induction toks with
  | nil => cases h
  | cons hd tl ih =>
    unfold paddedLen at *
    simp only [List.map_cons, List.foldr_cons]
    rcases List.mem_cons.mp h with h1 | h1
    · subst h1; exact le_max_left _ _
    · exact le_trans (ih h1) (le_max_right _ _)

theorem padRow_length {L pad : Nat} {xs : List Nat} (h : xs.length ≤ L) :
    (padRow L pad xs).length = L := by
  unfold padRow
  simp [Nat.add_sub_cancel' h]

theorem encodeBatch_length (m : GenModel) (ps : List String) :
    (encodeBatch m ps).length = ps.length := by
  unfold encodeBatch
  simp

theorem encodeBatch_getD_length (m : GenModel) (ps : List String) (i : Nat)
    (hi : i < ps.length) :
    ((encodeBatch m ps).getD i []).length = paddedLen (ps.map m.encode) := by
  unfold encodeBatch
  have hi' : i < (ps.map m.encode).length := by simpa using hi
  rw [List.getD_eq_getElem?_getD, List.getElem?_map, List.getElem?_eq_getElem hi']
  simp only [Option.map_some', Option.getD_some]
  exact padRow_length (le_paddedLen (List.getElem_mem hi'))

theorem run_generation_length (m : GenModel) (batch : List Sample)
    (rl ra : Bool) (um : Option (List String)) :
    (run_generation m batch rl ra um).length = batch.length := by
  unfold run_generation
  simp

theorem batchifyAux_nil (B fuel : Nat) : batchifyAux B fuel [] = [] := by
  cases fuel <;> rfl

theorem batchifyAux_irrel {B : Nat} (hB : B ≠ 0) :
    ∀ (f1 f2 : Nat) (data : List Sample),
      data.length ≤ f1 → data.length ≤ f2 →
      batchifyAux B f1 data = batchifyAux B f2 data := by
  intro f1
  induction f1 with
  | zero =>
    intro f2 data h1 _
    have hdn : data = [] := List.length_eq_zero.mp (Nat.le_zero.mp h1)
    subst hdn
    rw [batchifyAux_nil, batchifyAux_nil]
  | succ f ih =>
    intro f2 data h1 h2
    cases data with
    | nil => rw [batchifyAux_nil, batchifyAux_nil]
    | cons x xs =>
      cases f2 with
      | zero => simp at h2
      | succ f2' =>
        simp only [batchifyAux]
        congr 1
        have hBp : 0 < B := Nat.pos_of_ne_zero hB
        apply ih
        · simp only [List.length_drop, List.length_cons]
          simp only [List.length_cons] at h1
          omega
        · simp only [List.length_drop, List.length_cons]
          simp only [List.length_cons] at h2
          omega

theorem batchify_nil (B : Nat) : batchify B [] = [] := by
  unfold batchify
  split <;> rfl

theorem batchify_cons {B : Nat} {data : List Sample} (hB : B ≠ 0) (hd : data ≠ []) :
    batchify B data = data.take B :: batchify B (data.drop B) := by
  unfold batchify
  rw [if_neg hB, if_neg hB]
  cases data with
  | nil => exact absurd rfl hd
  | cons x xs =>
    simp only [List.length_cons, batchifyAux]
    congr 1
    have hBp : 0 < B := Nat.pos_of_ne_zero hB
    apply batchifyAux_irrel hB
    · simp only [List.length_drop, List.length_cons]
      omega
    · exact le_rfl

theorem batchify_join {B : Nat} (hB : B ≠ 0) (data : List Sample) :
    (batchify B data).flatten = data := by
  have H : ∀ (n : Nat) (l : List Sample), l.length ≤ n → (batchify B l).flatten = l := by
    intro n
    induction n with
    | zero =>
      intro l hl
      have : l = [] := List.length_eq_zero.mp (Nat.le_zero.mp hl)
      subst this
      rw [batchify_nil]
      rfl
    | succ n ih =>
      intro l hl
      by_cases hnil : l = []
      · subst hnil; rw [batchify_nil]; rfl
      · rw [batchify_cons hB hnil]
        have hlen : (l.drop B).length ≤ n := by
          have h1 : 0 < l.length := List.length_pos.mpr hnil
          have h2 : 0 < B := Nat.pos_of_ne_zero hB
          simp only [List.length_drop]
          omega
        simp only [List.flatten_cons, ih (l.drop B) hlen, List.take_append_drop]
  exact H data.length data le_rfl

theorem batchify_mem_length {B : Nat} {data b : List Sample}
    (h : b ∈ batchify B data) : b.length ≤ B := by
  have H : ∀ (n : Nat) (l : List Sample), l.length ≤ n → b ∈ batchify B l → b.length ≤ B := by
    intro n
    induction n with
    | zero =>
      intro l hl hmem
      have : l = [] := List.length_eq_zero.mp (Nat.le_zero.mp hl)
      subst this
      rw [batchify_nil] at hmem
      cases hmem
    | succ n ih =>
      intro l hl hmem
      by_cases hnil : l = []
      · subst hnil; rw [batchify_nil] at hmem; cases hmem
      · by_cases hB : B = 0
        · subst hB
          rw [batchify] at hmem
          simp at hmem
        · rw [batchify_cons hB hnil] at hmem
          rcases List.mem_cons.mp hmem with h1 | h1
          · subst h1
            simpa using List.length_take_le B l
          · have hlen : (l.drop B).length ≤ n := by
              have h1' : 0 < l.length := List.length_pos.mpr hnil
              have h2 : 0 < B := Nat.pos_of_ne_zero hB
              simp only [List.length_drop]
              omega
            exact ih (l.drop B) hlen h1
  exact H data.length data le_rfl h

theorem run_generation_mem {m : GenModel} {batch : List Sample}
    {rl ra : Bool} {um : Option (List String)} {o : GenOutput}
    (h : o ∈ run_generation m batch rl ra um) :
    ∃ i, i < batch.length ∧
      o.inputIds = (encodeBatch m (batch.map samplePrompt)).getD i [] ∧
      o.generatedIds = (encodeBatch m (batch.map samplePrompt)).getD i [] ++
        sampleContinuation m (encodeBatch m (batch.map samplePrompt)) i ∧
      o.scores = (if rl then some (batchScores m (encodeBatch m (batch.map samplePrompt))) else none) ∧
      o.logAttentions = (if ra then some (batchLogAttn m (encodeBatch m (batch.map samplePrompt))) else none) := by
  unfold run_generation at h
  simp only [List.mem_map, List.mem_range] at h
  obtain ⟨i, hi, ho⟩ := h
  exact ⟨i, hi, by subst ho; simp⟩

theorem generated_drop (m : GenModel) (batch : List Sample) (i : Nat)
    (hi : i < batch.length) :
    ((encodeBatch m (batch.map samplePrompt)).getD i [] ++
      sampleContinuation m (encodeBatch m (batch.map samplePrompt)) i).drop
      (paddedLen ((batch.map samplePrompt).map m.encode)) =
    sampleContinuation m (encodeBatch m (batch.map samplePrompt)) i := by
  have hL := encodeBatch_getD_length m (batch.map samplePrompt) i (by simpa using hi)
  rw [← hL, List.drop_left]

theorem run_generation_getD (m : GenModel) (batch : List Sample)
    (rl ra : Bool) (um : Option (List String)) (i : Nat) (hi : i < batch.length) :
    ((run_generation m batch rl ra um).getD i default).generatedIds =
      (encodeBatch m (batch.map samplePrompt)).getD i [] ++
        sampleContinuation m (encodeBatch m (batch.map samplePrompt)) i ∧
    ((run_generation m batch rl ra um).getD i default).generatedText =
      m.decode (sampleContinuation m (encodeBatch m (batch.map samplePrompt)) i) ∧
    ((run_generation m batch rl ra um).getD i default).inputIds =
      (encodeBatch m (batch.map samplePrompt)).getD i [] ∧
    ((run_generation m batch rl ra um).getD i default).scores =
      (if rl then some (batchScores m (encodeBatch m (batch.map samplePrompt))) else none) ∧
    ((run_generation m batch rl ra um).getD i default).logAttentions =
      (if ra then some (batchLogAttn m (encodeBatch m (batch.map samplePrompt))) else none) := by
  unfold run_generation
  rw [List.getD_eq_getElem?_getD, List.getElem?_map]
  rw [List.getElem?_range hi]
  simp only [Option.map_some', Option.getD_some]
  exact ⟨by simp, congrArg m.decode (generated_drop m batch i hi), by simp, by simp, by simp⟩

theorem processSample_likelihood_error {env : Env} {args : Args}
    {batchIdx i : Nat} {sample : Sample} {output : GenOutput} {e : String}
    (h : env.computeLikelihoods output = Except.error e) :
    processSample env args batchIdx i sample output = Except.error e := by
  unfold processSample
  rw [h]

theorem processSample_ok {env : Env} {args : Args} {batchIdx i : Nat}
    {sample : Sample} {output : GenOutput} {row : Row}
    (h : processSample env args batchIdx i sample output = Except.ok row) :
    row.id = batchIdx * args.batchSize + i ∧
    row.question = sample.question ∧
    row.generated_answer = output.generatedText ∧
    (args.similarityMethod ≠ "attention" → row.similarity_score = CsvVal.na) ∧
    (args.similarityMethod = "attention" →
      ∃ q, env.computeSimilarity output "attention" = Except.ok q ∧
        row.similarity_score = CsvVal.num q) := by
  unfold processSample at h
  split at h
  · exact Except.noConfusion h
  split at h
  · exact Except.noConfusion h
  split at h
  · exact Except.noConfusion h
  by_cases hm : args.similarityMethod = "attention"
  · rw [if_pos (by simp [hm])] at h
    cases h4 : env.computeSimilarity output "attention" with
    | error e => rw [h4] at h; exact Except.noConfusion h
    | ok q =>
      rw [h4] at h
      split at h
      · exact Except.noConfusion h
      rename_i similarity hsim
      have hq : similarity = some q := Except.ok.inj hsim.symm
      subst hq
      have hrow := (Except.ok.inj h).symm
      subst hrow
      refine ⟨rfl, rfl, rfl, ?_, ?_⟩
      · intro hne; exact absurd hm hne
      · intro _; exact ⟨q, rfl, rfl⟩
  · rw [if_neg (by simp [hm])] at h
    split at h
    · exact Except.noConfusion h
    rename_i similarity hsim
    have hq : similarity = (none : Option ℚ) := Except.ok.inj hsim.symm
    subst hq
    have hrow := (Except.ok.inj h).symm
    subst hrow
    exact ⟨rfl, rfl, rfl, fun _ => rfl, fun hc => absurd hc hm⟩

theorem appendRow_memTrace (st : RunState) (row : Row) :
    (appendRow st row).memTrace = st.memTrace := by
  unfold appendRow; split <;> rfl

theorem appendRow_genCalls (st : RunState) (row : Row) :
    (appendRow st row).genCalls = st.genCalls := by
  unfold appendRow; split <;> rfl

theorem appendRow_results (st : RunState) (row : Row) :
    (appendRow st row).results = st.results := by
  unfold appendRow; split <;> rfl

theorem appendRow_sinkInv {base : List FileRec} {st : RunState} {row : Row}
    (h : sinkInv base st) :
    sinkInv base (appendRow { st with results := st.results ++ [row] } row) := by
  obtain ⟨hf, hw⟩ := h
  cases hres : st.results with
  | nil =>
    rw [hres] at hf hw
    simp only [headerRecords, List.isEmpty_nil, Bool.not_true, if_pos] at hf hw
    constructor
    · simp [appendRow, hw, hres, headerRecords, hf]
    · simp [appendRow, hw, hres]
  | cons r rs =>
    rw [hres] at hf hw
    simp only [List.isEmpty_cons, Bool.not_false] at hw
    constructor
    · simp only [appendRow, hw, if_pos, hf, hres]
      simp [headerRecords, List.append_assoc]
    · simp [appendRow, hw, hres]

theorem runSamples_counters (env : Env) (args : Args) (batchIdx : Nat) :
    ∀ (pairs : List (Sample × GenOutput)) (i : Nat) (st : RunState),
      (runSamples env args batchIdx pairs i st).1.memTrace = st.memTrace ∧
      (runSamples env args batchIdx pairs i st).1.genCalls = st.genCalls := by
  intro pairs
  induction pairs with
  | nil => intro i st; exact ⟨rfl, rfl⟩
  | cons p rest ih =>
    intro i st
    obtain ⟨s, o⟩ := p
    simp only [runSamples]
    split
    · exact ⟨rfl, rfl⟩
    · rename_i row hps
      rw [(ih (i + 1) _).1, (ih (i + 1) _).2, appendRow_memTrace, appendRow_genCalls]
      exact ⟨rfl, rfl⟩

theorem runSamples_sinkInv (env : Env) (args : Args) (batchIdx : Nat)
    (base : List FileRec) :
    ∀ (pairs : List (Sample × GenOutput)) (i : Nat) (st : RunState),
      sinkInv base st →
      sinkInv base (runSamples env args batchIdx pairs i st).1 := by
  intro pairs
  induction pairs with
  | nil => intro i st h; exact h
  | cons p rest ih =>
    intro i st h
    obtain ⟨s, o⟩ := p
    simp only [runSamples]
    split
    · exact h
    · rename_i row hps
      exact ih (i + 1) _ (appendRow_sinkInv h)

theorem runSamples_ok_ids (env : Env) (args : Args) (batchIdx : Nat) :
    ∀ (pairs : List (Sample × GenOutput)) (i : Nat) (st st' : RunState),
      runSamples env args batchIdx pairs i st = (st', Except.ok ()) →
      st'.results.map Row.id =
        st.results.map Row.id ++
          List.range' (batchIdx * args.batchSize + i) pairs.length := by
  intro pairs
  induction pairs with
  | nil =>
    intro i st st' h
    simp only [runSamples] at h
    have hst : st = st' := congrArg Prod.fst h
    subst hst
    simp
  | cons p rest ih =>
    intro i st st' h
    obtain ⟨s, o⟩ := p
    simp only [runSamples] at h
    split at h
    · exact Except.noConfusion (congrArg Prod.snd h)
    · rename_i row hps
      have hres := ih (i + 1) _ st' h
      rw [hres, appendRow_results]
      have hid : row.id = batchIdx * args.batchSize + i := (processSample_ok hps).1
      simp only [List.map_append, List.map_cons, List.map_nil, List.length_cons]
      rw [List.range'_succ, hid]
      simp [Nat.add_assoc, Nat.add_comm 1 i]

/-- Every row appended by `runSamples` satisfies any property guaranteed by
a successful `processSample`. -/
theorem runSamples_results_pres (env : Env) (args : Args) (batchIdx : Nat)
    (P : Row → Prop)
    (hP : ∀ (i : Nat) (s : Sample) (o : GenOutput) (row : Row),
      processSample env args batchIdx i s o = Except.ok row → P row) :
    ∀ (pairs : List (Sample × GenOutput)) (i : Nat) (st : RunState),
      (∀ r ∈ st.results, P r) →
      ∀ r ∈ (runSamples env args batchIdx pairs i st).1.results, P r := by
  intro pairs
  induction pairs with
  | nil => intro i st h; exact h
  | cons p rest ih =>
    intro i st h
    obtain ⟨s, o⟩ := p
    simp only [runSamples]
    split
    · exact h
    · rename_i row hps
      apply ih (i + 1)
      rw [appendRow_results]
      intro r hr
      rcases List.mem_append.mp hr with h1 | h1
      · exact h r h1
      · rw [List.mem_singleton.mp h1]
        exact hP i s o row hps

theorem runBatches_sinkInv (env : Env) (m : GenModel) (args : Args)
    (base : List FileRec) :
    ∀ (batches : List (List Sample)) (bIdx : Nat) (st : RunState),
      sinkInv base st →
      sinkInv base (runBatches env m args bIdx batches st).1 := by
  intro batches
  induction batches with
  | nil => intro bIdx st h; exact h
  | cons b rest ih =>
    intro bIdx st h
    simp only [runBatches]
    split
    · rename_i st2 e hs
      have h2 := runSamples_sinkInv env args bIdx base
        (b.zip (run_generation m b true (args.similarityMethod == "attention") none)) 0
        { st with
          genCalls := st.genCalls + 1
          memTrace := st.memTrace ++
            [(run_generation m b true (args.similarityMethod == "attention") none).length] } h
      rw [hs] at h2
      exact h2
    · rename_i st2 u hs
      apply ih (bIdx + 1)
      have h2 := runSamples_sinkInv env args bIdx base
        (b.zip (run_generation m b true (args.similarityMethod == "attention") none)) 0
        { st with
          genCalls := st.genCalls + 1
          memTrace := st.memTrace ++
            [(run_generation m b true (args.similarityMethod == "attention") none).length] } h
      rw [hs] at h2
      exact h2

theorem runBatches_memTrace_bound (env : Env) (m : GenModel) (args : Args) :
    ∀ (batches : List (List Sample)) (bIdx : Nat) (st : RunState),
      (∀ b ∈ batches, b.length ≤ args.batchSize) →
      ∀ v ∈ (runBatches env m args bIdx batches st).1.memTrace,
        v ∈ st.memTrace ∨ v ≤ args.batchSize := by
  intro batches
  induction batches with
  | nil => intro bIdx st _ v hv; exact Or.inl hv
  | cons b rest ih =>
    intro bIdx st hb
    simp only [runBatches]
    split
    · rename_i st2 e hs
      intro v hv
      have hcnt := (runSamples_counters env args bIdx
        (b.zip (run_generation m b true (args.similarityMethod == "attention") none)) 0
        { st with
          genCalls := st.genCalls + 1
          memTrace := st.memTrace ++
            [(run_generation m b true (args.similarityMethod == "attention") none).length] }).1
      rw [hs] at hcnt
      rw [hcnt] at hv
      rcases List.mem_append.mp hv with h1 | h1
      · exact Or.inl h1
      · right
        rw [List.mem_singleton.mp h1, run_generation_length]
        exact hb b (List.mem_cons_self b rest)
    · rename_i st2 u hs
      intro v hv
      have hmt : st2.memTrace = st.memTrace ++
          [(run_generation m b true (args.similarityMethod == "attention") none).length] := by
        have hcnt := (runSamples_counters env args bIdx
          (b.zip (run_generation m b true (args.similarityMethod == "attention") none)) 0
          { st with
            genCalls := st.genCalls + 1
            memTrace := st.memTrace ++
              [(run_generation m b true (args.similarityMethod == "attention") none).length] }).1
        rw [hs] at hcnt
        exact hcnt
      have hrec := ih (bIdx + 1) { st2 with memTrace := st2.memTrace ++ [0] }
        (fun b' hb' => hb b' (List.mem_cons_of_mem b hb')) v hv
      rcases hrec with h1 | h1
      · have h1' : v ∈ st2.memTrace ++ [0] := h1
        rcases List.mem_append.mp h1' with h2 | h2
        · rw [hmt] at h2
          rcases List.mem_append.mp h2 with h3 | h3
          · exact Or.inl h3
          · right
            rw [List.mem_singleton.mp h3, run_generation_length]
            exact hb b (List.mem_cons_self b rest)
        · right
          rw [List.mem_singleton.mp h2]
          exact Nat.zero_le _
      · exact Or.inr h1

theorem runBatches_ok_counters (env : Env) (m : GenModel) (args : Args) :
    ∀ (batches : List (List Sample)) (bIdx : Nat) (st st' : RunState),
      runBatches env m args bIdx batches st = (st', Except.ok ()) →
      st'.memTrace = st.memTrace ++ (batches.map (fun b => [b.length, 0])).flatten ∧
      st'.genCalls = st.genCalls + batches.length := by
  intro batches
  induction batches with
  | nil =>
    intro bIdx st st' h
    have hst : st = st' := congrArg Prod.fst h
    subst hst
    simp
  | cons b rest ih =>
    intro bIdx st st' h
    simp only [runBatches] at h
    split at h
    · exact Except.noConfusion (congrArg Prod.snd h)
    · rename_i st2 u hs
      cases u
      have hcnt := runSamples_counters env args bIdx
        (b.zip (run_generation m b true (args.similarityMethod == "attention") none)) 0
        { st with
          genCalls := st.genCalls + 1
          memTrace := st.memTrace ++
            [(run_generation m b true (args.similarityMethod == "attention") none).length] }
      rw [hs] at hcnt
      have hmt : st2.memTrace = st.memTrace ++
          [(run_generation m b true (args.similarityMethod == "attention") none).length] := hcnt.1
      have hgc : st2.genCalls = st.genCalls + 1 := hcnt.2
      obtain ⟨hmem, hgen⟩ := ih (bIdx + 1) { st2 with memTrace := st2.memTrace ++ [0] } st' h
      constructor
      · have hmem' : st'.memTrace =
            (st2.memTrace ++ [0]) ++ (rest.map (fun b => [b.length, 0])).flatten := hmem
        rw [hmem', hmt, run_generation_length]
        simp [List.append_assoc]
      · have hgen' : st'.genCalls = st2.genCalls + rest.length := hgen
        rw [hgen', hgc]
        simp [List.length_cons]
        omega

theorem runBatches_results_pres (env : Env) (m : GenModel) (args : Args)
    (P : Row → Prop)
    (hP : ∀ (bIdx i : Nat) (s : Sample) (o : GenOutput) (row : Row),
      processSample env args bIdx i s o = Except.ok row → P row) :
    ∀ (batches : List (List Sample)) (bIdx : Nat) (st : RunState),
      (∀ r ∈ st.results, P r) →
      ∀ r ∈ (runBatches env m args bIdx batches st).1.results, P r := by
  intro batches
  induction batches with
  | nil => intro bIdx st h; exact h
  | cons b rest ih =>
    intro bIdx st h
    simp only [runBatches]
    split
    · rename_i st2 e hs
      have h2 := runSamples_results_pres env args bIdx P (hP bIdx)
        (b.zip (run_generation m b true (args.similarityMethod == "attention") none)) 0
        { st with
          genCalls := st.genCalls + 1
          memTrace := st.memTrace ++
            [(run_generation m b true (args.similarityMethod == "attention") none).length] } h
      rw [hs] at h2
      exact h2
    · rename_i st2 u hs
      apply ih (bIdx + 1)
      have h2 := runSamples_results_pres env args bIdx P (hP bIdx)
        (b.zip (run_generation m b true (args.similarityMethod == "attention") none)) 0
        { st with
          genCalls := st.genCalls + 1
          memTrace := st.memTrace ++
            [(run_generation m b true (args.similarityMethod == "attention") none).length] } h
      rw [hs] at h2
      exact h2

theorem runBatches_ok_ids (env : Env) (m : GenModel) (args : Args)
    (hB : args.batchSize ≠ 0) :
    ∀ (n : Nat) (l : List Sample) (bIdx : Nat) (st st' : RunState),
      l.length ≤ n →
      runBatches env m args bIdx (batchify args.batchSize l) st = (st', Except.ok ()) →
      st'.results.map Row.id =
        st.results.map Row.id ++ List.range' (bIdx * args.batchSize) l.length := by
  intro n
  induction n with
  | zero =>
    intro l bIdx st st' hl h
    have hnil : l = [] := List.length_eq_zero.mp (Nat.le_zero.mp hl)
    subst hnil
    rw [batchify_nil] at h
    simp only [runBatches] at h
    have hst : st = st' := congrArg Prod.fst h
    subst hst
    simp
  | succ n ih =>
    intro l bIdx st st' hl h
    by_cases hnil : l = []
    · subst hnil
      rw [batchify_nil] at h
      simp only [runBatches] at h
      have hst : st = st' := congrArg Prod.fst h
      subst hst
      simp
    · rw [batchify_cons hB hnil] at h
      simp only [runBatches] at h
      split at h
      · exact Except.noConfusion (congrArg Prod.snd h)
      · rename_i st2 u hs
        cases u
        have hlen0 : (run_generation m (l.take args.batchSize) true
            (args.similarityMethod == "attention") none).length =
            (l.take args.batchSize).length := run_generation_length m _ _ _ _
        have hzip : ((l.take args.batchSize).zip (run_generation m (l.take args.batchSize) true
            (args.similarityMethod == "attention") none)).length =
            (l.take args.batchSize).length := by
          rw [List.length_zip, hlen0, Nat.min_self]
        have hids1 := runSamples_ok_ids env args bIdx
          ((l.take args.batchSize).zip (run_generation m (l.take args.batchSize) true
            (args.similarityMethod == "attention") none)) 0
          { st with
            genCalls := st.genCalls + 1
            memTrace := st.memTrace ++
              [(run_generation m (l.take args.batchSize) true
                (args.similarityMethod == "attention") none).length] } st2 hs
        rw [hzip] at hids1
        have hids1' : st2.results.map Row.id =
            st.results.map Row.id ++
              List.range' (bIdx * args.batchSize) (min args.batchSize l.length) := by
          rw [hids1]
          simp [List.length_take]
        have hrecl : ((l.drop args.batchSize).length) ≤ n := by
          have h1 : 0 < l.length := List.length_pos.mpr hnil
          have h2 : 0 < args.batchSize := Nat.pos_of_ne_zero hB
          simp only [List.length_drop]
          omega
        have hids2 := ih (l.drop args.batchSize) (bIdx + 1)
          { st2 with memTrace := st2.memTrace ++ [0] } st' hrecl h
        have hids2' : st'.results.map Row.id =
            st2.results.map Row.id ++
              List.range' ((bIdx + 1) * args.batchSize) (l.length - args.batchSize) := by
          rw [hids2]
          simp [List.length_drop]
        rw [hids2', hids1', List.append_assoc]
        congr 1
        rcases le_or_lt l.length args.batchSize with hle | hlt
        · have h1 : min args.batchSize l.length = l.length := Nat.min_eq_right hle
          have h2 : l.length - args.batchSize = 0 := Nat.sub_eq_zero_of_le hle
          rw [h1, h2]
          simp
        · have h1 : min args.batchSize l.length = args.batchSize :=
            Nat.min_eq_left (Nat.le_of_lt hlt)
          rw [h1]
          have h2 : (bIdx + 1) * args.batchSize =
              bIdx * args.batchSize + args.batchSize := by ring
          rw [h2, List.range'_append_1]
          congr 1
          omega

theorem mainRun_eq_of_loadDataset {env : Env} {m : GenModel} {args : Args}
    {init : List FileRec} {ds : List Sample}
    (h : loadDataset env args = Except.ok ds) :
    mainRun env m args init =
      runBatches env m args 0 (batchify args.batchSize ds) (initState init) := by
  unfold mainRun
  rw [h]

theorem mainRun_eq_error {env : Env} {m : GenModel} {args : Args}
    {init : List FileRec} {e : String}
    (h : loadDataset env args = Except.error e) :
    mainRun env m args init = (initState init, Except.error e) := by
  unfold mainRun
  rw [h]

theorem initState_sinkInv (init : List FileRec) : sinkInv init (initState init) := by
  constructor
  · simp [initState, headerRecords]
  · simp [initState]

/-- Master durability relation of a run: whatever the oracles do (including
raising at any point), the destination file ends as the initial content
followed by one header and exactly the rows that were persisted, and the
header flag is set exactly when at least one row was persisted. -/
theorem mainRun_sinkInv (env : Env) (m : GenModel) (args : Args)
    (init : List FileRec) :
    sinkInv init (mainRun env m args init).1 := by
  unfold mainRun
  cases h : loadDataset env args with
  | error e => exact initState_sinkInv init
  | ok ds => exact runBatches_sinkInv env m args init _ 0 _ (initState_sinkInv init)

theorem mainRun_results_pres (env : Env) (m : GenModel) (args : Args)
    (init : List FileRec) (P : Row → Prop)
    (hP : ∀ (bIdx i : Nat) (s : Sample) (o : GenOutput) (row : Row),
      processSample env args bIdx i s o = Except.ok row → P row) :
    ∀ r ∈ (mainRun env m args init).1.results, P r := by
  unfold mainRun
  cases h : loadDataset env args with
  | error e => intro r hr; simp [initState] at hr
  | ok ds =>
    exact runBatches_results_pres env m args P hP _ 0 _
      (by intro r hr; simp [initState] at hr)

theorem headerCount_rowRecords (rows : List Row) :
    (rows.map FileRec.row).countP
      (fun r => match r with | FileRec.header _ => true | FileRec.row _ => false) = 0 := by
  induction rows with
  | nil => rfl
  | cons r rs ih => simp [List.countP_cons, ih]

theorem headerCount_headerRecords (rows : List Row) :
    headerCount (headerRecords rows) = if rows.isEmpty then 0 else 1 := by
  unfold headerCount headerRecords
  cases rows with
  | nil => simp
  | cons r rs =>
    simp only [List.isEmpty_cons, Bool.false_eq_true, if_false]
    rw [List.countP_cons]
    have h0 := headerCount_rowRecords (r :: rs)
    rw [h0]
    rfl

/-- C3: for a run over a dataset of N samples with batch size B > 0 that
completes without error, the batches are contiguous slices of at most B
samples that partition the dataset, every emitted row's id equals
batch_index * B + offset_within_batch, and the emitted ids are exactly
0..N-1 in emission order (strictly increasing, no gaps, no repeats). -/
theorem C3_id_contiguity (env : Env) (m : GenModel) (args : Args)
    (init : List FileRec) (ds : List Sample)
    (hB : 0 < args.batchSize)
    (hds : loadDataset env args = Except.ok ds)
    (hok : (mainRun env m args init).2 = Except.ok ()) :
    (mainRun env m args init).1.results.map Row.id = List.range ds.length ∧
    (batchify args.batchSize ds).flatten = ds ∧
    (∀ b ∈ batchify args.batchSize ds, b.length ≤ args.batchSize) ∧
    (∀ (bIdx i : Nat) (s : Sample) (o : GenOutput) (row : Row),
      processSample env args bIdx i s o = Except.ok row →
      row.id = bIdx * args.batchSize + i) := by
  have hBne : args.batchSize ≠ 0 := Nat.pos_iff_ne_zero.mp hB
  have hmain : mainRun env m args init =
      runBatches env m args 0 (batchify args.batchSize ds) (initState init) :=
    @mainRun_eq_of_loadDataset env m args init ds hds
  refine ⟨?_, batchify_join hBne ds, fun b hb => batchify_mem_length hb,
    fun bIdx i s o row hps => (processSample_ok hps).1⟩
  have hrb : runBatches env m args 0 (batchify args.batchSize ds) (initState init) =
      ((mainRun env m args init).1, Except.ok ()) := by
    rw [← hok, ← hmain]
  have hids := runBatches_ok_ids env m args hBne ds.length ds 0
    (initState init) (mainRun env m args init).1 le_rfl hrb
  rw [hids]
  have hinit : (initState init).results.map Row.id = [] := rfl
  rw [hinit, List.nil_append, Nat.zero_mul, List.range_eq_range']

/-- C3 witness: 5 samples with batch size 2 (batches of sizes 2,2,1)
produce ids 0,1,2,3,4. -/
theorem C3_witness :
    (0 < (demoArgs "sampleqa" "sbert" 2).batchSize) ∧
    loadDataset (okEnv 5) (demoArgs "sampleqa" "sbert" 2) = Except.ok (demoSamples 5) ∧
    (mainRun (okEnv 5) demoModel (demoArgs "sampleqa" "sbert" 2) []).2 = Except.ok () ∧
    (mainRun (okEnv 5) demoModel (demoArgs "sampleqa" "sbert" 2) []).1.results.map Row.id =
      List.range 5 :=
  ⟨by decide, by decide, by decide, by
    have h := (C3_id_contiguity (okEnv 5) demoModel (demoArgs "sampleqa" "sbert" 2) []
      (demoSamples 5) (by decide) (by decide) (by decide)).1
    rw [show (demoSamples 5).length = 5 from by decide] at h
    exact h⟩

/-- C6: instrumented live generation-output counts never exceed one
batch's worth (at most batchSize at every event point), and on a
successful run the trace is exactly, per batch, an acquisition of the
batch's outputs followed by a release to zero before the next batch. -/
theorem C6_memory_release (env : Env) (m : GenModel) (args : Args)
    (init : List FileRec) :
    (∀ v ∈ (mainRun env m args init).1.memTrace, v ≤ args.batchSize) ∧
    (∀ ds, loadDataset env args = Except.ok ds →
      (mainRun env m args init).2 = Except.ok () →
      (mainRun env m args init).1.memTrace =
        ((batchify args.batchSize ds).map (fun b => [b.length, 0])).flatten) := by
  constructor
  · intro v hv
    cases h : loadDataset env args with
    | error e =>
      rw [@mainRun_eq_error env m args init _ h] at hv
      simp [initState] at hv
    | ok ds =>
      rw [@mainRun_eq_of_loadDataset env m args init ds h] at hv
      have hb := runBatches_memTrace_bound env m args (batchify args.batchSize ds) 0
        (initState init) (fun b hb => batchify_mem_length hb) v hv
      rcases hb with h1 | h1
      · simp [initState] at h1
      · exact h1
  · intro ds hds hok
    have hmain : mainRun env m args init =
        runBatches env m args 0 (batchify args.batchSize ds) (initState init) :=
      @mainRun_eq_of_loadDataset env m args init ds hds
    have hrb : runBatches env m args 0 (batchify args.batchSize ds) (initState init) =
        ((mainRun env m args init).1, Except.ok ()) := by
      rw [← hok, ← hmain]
    have hcnt := (runBatches_ok_counters env m args (batchify args.batchSize ds) 0
      (initState init) (mainRun env m args init).1 hrb).1
    rw [hcnt]
    rfl

/-- C6 witness: the 5-sample, batch-size-2 run has live-count trace
2,0,2,0,1,0 — every entry at most 2, released to 0 between batches. -/
theorem C6_witness :
    (1 ∈ (mainRun (okEnv 5) demoModel (demoArgs "sampleqa" "sbert" 2) []).1.memTrace) ∧
    1 ≤ (demoArgs "sampleqa" "sbert" 2).batchSize ∧
    (mainRun (okEnv 5) demoModel (demoArgs "sampleqa" "sbert" 2) []).1.memTrace =
      ((batchify 2 (demoSamples 5)).map (fun b => [b.length, 0])).flatten :=
  ⟨by decide,
   (C6_memory_release (okEnv 5) demoModel (demoArgs "sampleqa" "sbert" 2) []).1 1 (by decide),
   (C6_memory_release (okEnv 5) demoModel (demoArgs "sampleqa" "sbert" 2) []).2
     (demoSamples 5) (by decide) (by decide)⟩

/-- C7: within one run the sink writes the CSV header exactly once, before
the first row, tracked by the in-memory `header_written` flag; the run
appends after whatever the destination already contained, so a prior run's
content (including its header) is kept and a fresh header is added, which
can duplicate a header. -/
theorem C7_header_once (env : Env) (m : GenModel) (args : Args)
    (init : List FileRec) :
    ((mainRun env m args init).1.fileContents =
      init ++ headerRecords (mainRun env m args init).1.results) ∧
    ((mainRun env m args init).1.headerWritten =
      !(mainRun env m args init).1.results.isEmpty) ∧
    (headerCount (mainRun env m args init).1.fileContents =
      headerCount init +
        (if (mainRun env m args init).1.results.isEmpty then 0 else 1)) ∧
    ((mainRun env m args init).1.results ≠ [] →
      (mainRun env m args init).1.fileContents =
        init ++ FileRec.header csvFields ::
          (mainRun env m args init).1.results.map FileRec.row) := by
  obtain ⟨hf, hw⟩ := mainRun_sinkInv env m args init
  refine ⟨hf, hw, ?_, ?_⟩
  · rw [hf]
    unfold headerCount
    rw [List.countP_append]
    have h1 := headerCount_headerRecords (mainRun env m args init).1.results
    unfold headerCount at h1
    rw [h1]
  · intro hne
    rw [hf]
    cases hres : (mainRun env m args init).1.results with
    | nil => exact absurd hres hne
    | cons r rs => simp [headerRecords]

/-- C7 witness: a 1-sample run over a destination that already holds a
header from a prior run appends a second header and the row after the
existing content. -/
theorem C7_witness :
    ((mainRun (okEnv 1) demoModel (demoArgs "sampleqa" "sbert" 1)
        [FileRec.header csvFields]).1.results ≠ []) ∧
    (mainRun (okEnv 1) demoModel (demoArgs "sampleqa" "sbert" 1)
        [FileRec.header csvFields]).1.fileContents =
      [FileRec.header csvFields] ++ FileRec.header csvFields ::
        (mainRun (okEnv 1) demoModel (demoArgs "sampleqa" "sbert" 1)
          [FileRec.header csvFields]).1.results.map FileRec.row ∧
    headerCount (mainRun (okEnv 1) demoModel (demoArgs "sampleqa" "sbert" 1)
        [FileRec.header csvFields]).1.fileContents = 2 :=
  ⟨by decide,
   (C7_header_once (okEnv 1) demoModel (demoArgs "sampleqa" "sbert" 1)
     [FileRec.header csvFields]).2.2.2 (by decide),
   by decide⟩

/-- C8: each row append is an atomic open-write-close transaction
performed before the next sample is processed (the per-sample loop appends
the row to the file before recursing, and stops at the failing sample
having changed nothing for it), so for every oracle behaviour — including
one that raises after the Nth successful sample — the destination file
ends as the prior content plus a header plus exactly the rows persisted
before the failure. -/
theorem C8_append_durability (env : Env) (m : GenModel) (args : Args)
    (init : List FileRec) (batchIdx i : Nat) (sample : Sample)
    (output : GenOutput) (rest : List (Sample × GenOutput)) (st : RunState) :
    ((mainRun env m args init).1.fileContents =
      init ++ headerRecords (mainRun env m args init).1.results) ∧
    (∀ row, processSample env args batchIdx i sample output = Except.ok row →
      runSamples env args batchIdx ((sample, output) :: rest) i st =
        runSamples env args batchIdx rest (i + 1)
          (appendRow { st with results := st.results ++ [row] } row)) ∧
    (∀ e, processSample env args batchIdx i sample output = Except.error e →
      runSamples env args batchIdx ((sample, output) :: rest) i st =
        (st, Except.error e)) := by
  refine ⟨(mainRun_sinkInv env m args init).1, ?_, ?_⟩
  · intro row hrow
    simp only [runSamples, hrow]
  · intro e he
    simp only [runSamples, he]

/-- C8 witness: the first sample's row is appended (header first) before
the rest of the batch is processed. -/
theorem C8_witness :
    (processSample (okEnv 1) (demoArgs "sampleqa" "sbert" 1) 0 0
      { question := "q", prompt := none } default = Except.ok
        { id := 0, question := "q", generated_answer := "",
          uncertainty := UScore.val 0, correct := true,
          similarity_score := CsvVal.na }) ∧
    runSamples (okEnv 1) (demoArgs "sampleqa" "sbert" 1) 0
        [({ question := "q", prompt := none }, default)] 0 (initState []) =
      runSamples (okEnv 1) (demoArgs "sampleqa" "sbert" 1) 0 [] 1
        (appendRow { (initState []) with
          results := (initState []).results ++
            [{ id := 0, question := "q", generated_answer := "",
               uncertainty := UScore.val 0, correct := true,
               similarity_score := CsvVal.na }] }
          { id := 0, question := "q", generated_answer := "",
            uncertainty := UScore.val 0, correct := true,
            similarity_score := CsvVal.na }) :=
  ⟨by decide,
   (C8_append_durability (okEnv 1) demoModel (demoArgs "sampleqa" "sbert" 1) [] 0 0
     { question := "q", prompt := none } default [] (initState [])).2.1
     { id := 0, question := "q", generated_answer := "",
       uncertainty := UScore.val 0, correct := true,
       similarity_score := CsvVal.na } (by decide)⟩

/-- C1 counterexample: with a likelihood extractor that raises, a 1-sample
run is aborted by the exception (no catch in the loop): the run ends in
the error, no row is persisted for the failing sample — no "unavailable"
sentinel row exists — and processing does not continue. -/
theorem C1_counterexample :
    (mainRun (likeFailEnv 1) demoModel (demoArgs "sampleqa" "sbert" 1) []).2 =
      Except.error "likelihood failure" ∧
    (mainRun (likeFailEnv 1) demoModel (demoArgs "sampleqa" "sbert" 1) []).1.results = [] ∧
    (mainRun (likeFailEnv 1) demoModel (demoArgs "sampleqa" "sbert" 1) []).1.fileContents = [] :=
  ⟨by decide, by decide, by decide⟩

/-- C1 amended: a per-sample scoring exception is not caught by the batch
loop: the destination file still ends as the prior content plus exactly
the rows persisted before the failure, and when the scoring of the very
first sample raises, the run aborts with that exception having persisted
nothing new. -/
theorem C1_amended (env : Env) (m : GenModel) (args : Args)
    (init : List FileRec) (e : String) :
    ((mainRun env m args init).1.fileContents =
      init ++ headerRecords (mainRun env m args init).1.results) ∧
    (∀ ds, loadDataset env args = Except.ok ds → ds ≠ [] → args.batchSize ≠ 0 →
      (∀ o : GenOutput, env.computeLikelihoods o = Except.error e) →
      (mainRun env m args init).2 = Except.error e ∧
      (mainRun env m args init).1.results = [] ∧
      (mainRun env m args init).1.fileContents = init) := by
  refine ⟨(mainRun_sinkInv env m args init).1, ?_⟩
  intro ds hds hne hB hfail
  have hmain : mainRun env m args init =
      runBatches env m args 0 (batchify args.batchSize ds) (initState init) :=
    @mainRun_eq_of_loadDataset env m args init ds hds
  rw [batchify_cons hB hne] at hmain
  obtain ⟨a, as, rfl⟩ := List.exists_cons_of_ne_nil hne
  obtain ⟨B0, hB0⟩ := Nat.exists_eq_succ_of_ne_zero hB
  rw [hB0, List.take_succ_cons] at hmain
  rw [hmain]
  cases houts : run_generation m (a :: List.take B0 as) true
      (args.similarityMethod == "attention") none with
  | nil =>
    have hlen := run_generation_length m (a :: List.take B0 as) true
      (args.similarityMethod == "attention") none
    rw [houts] at hlen
    simp at hlen
  | cons o os =>
    simp only [runBatches, houts, List.zip_cons_cons, runSamples,
      processSample_likelihood_error (hfail o)]
    exact ⟨trivial, rfl, rfl⟩

/-- C1 amended witness: the failing 1-sample run over a destination that
already holds a header aborts with the exception and leaves the
destination exactly as it was. -/
theorem C1_witness :
    ((demoSamples 1 : List Sample) ≠ []) ∧
    (mainRun (likeFailEnv 1) demoModel (demoArgs "sampleqa" "sbert" 1)
        [FileRec.header csvFields]).2 = Except.error "likelihood failure" ∧
    (mainRun (likeFailEnv 1) demoModel (demoArgs "sampleqa" "sbert" 1)
        [FileRec.header csvFields]).1.fileContents = [FileRec.header csvFields] :=
  ⟨by decide,
   ((C1_amended (likeFailEnv 1) demoModel (demoArgs "sampleqa" "sbert" 1)
      [FileRec.header csvFields] "likelihood failure").2 (demoSamples 1)
      (by decide) (by decide) (by decide) (fun _ => rfl)).1,
   ((C1_amended (likeFailEnv 1) demoModel (demoArgs "sampleqa" "sbert" 1)
      [FileRec.header csvFields] "likelihood failure").2 (demoSamples 1)
      (by decide) (by decide) (by decide) (fun _ => rfl)).2.2⟩

/-- C2 counterexample: with the supported embedding-based method 'sbert'
configured (the argparse default) and a similarity scorer that raises
whenever it is invoked, a 1-sample run completes successfully and the
persisted row's similarity field is 'NA' — the scorer was never invoked
and the row does not carry its score, refuting the claim for any
requested method other than 'attention'. -/
theorem C2_counterexample :
    (mainRun (simProbeEnv 1) demoModel (demoArgs "sampleqa" "sbert" 1) []).2 =
      Except.ok () ∧
    (mainRun (simProbeEnv 1) demoModel (demoArgs "sampleqa" "sbert" 1) []).1.results.map
      Row.similarity_score = [CsvVal.na] :=
  ⟨by decide, by decide⟩

/-- C2 amended: the Similarity Scorer is invoked exactly when the
configured method is the string 'attention': for any other configured
value (including the embedding-based 'sbert') every persisted row's
similarity field is the 'NA' sentinel — never numeric zero — and when
'attention' is configured each successfully scored row carries the
scorer's value. -/
theorem C2_amended (env : Env) (m : GenModel) (args : Args)
    (init : List FileRec) (batchIdx i : Nat) (sample : Sample)
    (output : GenOutput) :
    (args.similarityMethod ≠ "attention" →
      ∀ r ∈ (mainRun env m args init).1.results, r.similarity_score = CsvVal.na) ∧
    (args.similarityMethod = "attention" →
      ∀ row, processSample env args batchIdx i sample output = Except.ok row →
        ∃ q, env.computeSimilarity output "attention" = Except.ok q ∧
          row.similarity_score = CsvVal.num q) := by
  constructor
  · intro hne
    exact mainRun_results_pres env m args init
      (fun r => r.similarity_score = CsvVal.na)
      (fun bIdx j s o row hps => (processSample_ok hps).2.2.2.1 hne)
  · intro hm row hrow
    exact (processSample_ok hrow).2.2.2.2 hm

/-- C2 amended witness: with the 'attention' method, a successfully
scored row carries the similarity scorer's value. -/
theorem C2_witness :
    ((demoArgs "sampleqa" "attention" 1).similarityMethod = "attention") ∧
    (∃ q, (okEnv 1).computeSimilarity default "attention" = Except.ok q ∧
      ({ id := 0, question := "q", generated_answer := "",
         uncertainty := UScore.val 0, correct := true,
         similarity_score := CsvVal.num 1 } : Row).similarity_score =
        CsvVal.num q) :=
  ⟨rfl,
   (C2_amended (okEnv 1) demoModel (demoArgs "sampleqa" "attention" 1) [] 0 0
     { question := "q", prompt := none } default).2 rfl
     { id := 0, question := "q", generated_answer := "",
       uncertainty := UScore.val 0, correct := true,
       similarity_score := CsvVal.num 1 } (by decide)⟩

/-- C4 counterexample: with an unknown similarity-method tag 'bogus' the
run is not aborted by any configuration error: it completes successfully
and silently behaves as if similarity were disabled (rows carry 'NA'),
refuting "an unknown scoring-method tag is a fatal ConfigurationError
raised before any batch processing begins" and "never a silent
fallback". -/
theorem C4_counterexample :
    (mainRun (okEnv 1) demoModel (demoArgs "sampleqa" "bogus" 1) []).2 =
      Except.ok () ∧
    (mainRun (okEnv 1) demoModel (demoArgs "sampleqa" "bogus" 1) []).1.results.map
      Row.similarity_score = [CsvVal.na] ∧
    (mainRun (okEnv 1) demoModel (demoArgs "sampleqa" "bogus" 1) []).1.genCalls = 1 :=
  ⟨by decide, by decide, by decide⟩

/-- C4 amended: an unknown dataset name is fatal before any batch
processing begins (the run ends immediately in the ValueError with no
generation call and no file change); an unknown similarity-method tag is
not an error but a silent fallback that disables similarity scoring. -/
theorem C4_amended (env : Env) (m : GenModel) (args : Args)
    (init : List FileRec) :
    (args.dataset ≠ "sampleqa" → args.dataset ≠ "sciq" → args.dataset ≠ "coqa" →
      args.dataset ≠ "triviaqa" →
      mainRun env m args init =
        (initState init, Except.error ("Unsupported dataset: " ++ args.dataset)) ∧
      (mainRun env m args init).1.genCalls = 0 ∧
      (mainRun env m args init).1.fileContents = init) ∧
    (args.similarityMethod ≠ "attention" →
      ∀ r ∈ (mainRun env m args init).1.results, r.similarity_score = CsvVal.na) := by
  constructor
  · intro h1 h2 h3 h4
    have hld : loadDataset env args =
        Except.error ("Unsupported dataset: " ++ args.dataset) := by
      unfold loadDataset
      rw [if_neg h1, if_neg h2, if_neg h3, if_neg h4]
    have hm := @mainRun_eq_error env m args init _ hld
    exact ⟨hm, by rw [hm]; rfl, by rw [hm]; rfl⟩
  · intro hne
    exact mainRun_results_pres env m args init
      (fun r => r.similarity_score = CsvVal.na)
      (fun bIdx j s o row hps => (processSample_ok hps).2.2.2.1 hne)

/-- C4 amended witness: an unknown dataset name aborts the run before any
batch processing. -/
theorem C4_witness :
    (("nope" : String) ≠ "sampleqa") ∧
    mainRun (okEnv 1) demoModel (demoArgs "nope" "sbert" 1) [] =
      (initState [], Except.error "Unsupported dataset: nope") :=
  ⟨by decide,
   ((C4_amended (okEnv 1) demoModel (demoArgs "nope" "sbert" 1) []).1
     (by decide) (by decide) (by decide) (by decide)).1⟩

/-- C5 counterexample: for a concrete two-sample batch over a 3-token
vocabulary, the `scores` field of every returned item is the shared
batch-level sequence whose single step entry is a [2, 3] tensor (one row
per sample of the batch), not a vector over the full vocabulary (shape
[3]) for that sample — refuting the claim's description of `scores`. -/
theorem C5_counterexample :
    (¬ (∀ o ∈ run_generation demoModel twoBatch true false none,
        ∀ t ∈ o.scores.getD [], t.shape = [demoModel.vocabSize])) ∧
    ((run_generation demoModel twoBatch true false none).map
      (fun o => o.scores.map (fun s => s.map QTensor.shape))) =
      [some [[2, 3]], some [[2, 3]]] :=
  ⟨by decide, by decide⟩

/-- C5 amended: generation is invoked exactly once per batch (the number
of generation calls of a successful run equals the number of batches),
with attention output disabled unless attention-based similarity is
requested, and returns one GenerationOutput per sample in the batch's
order; however each output's `scores` field is the whole batch's
per-step score list — one entry per generation step of the batch, each
entry a [batch_size, vocabulary] tensor shared by all the batch's items —
not a per-sample sequence of vocabulary vectors. -/
theorem C5_amended (env : Env) (m : GenModel) (args : Args)
    (init : List FileRec) (batch : List Sample) (rl ra : Bool) :
    ((run_generation m batch rl ra none).length = batch.length) ∧
    (∀ i, i < batch.length →
      ((run_generation m batch rl ra none).getD i default).generatedIds =
        (encodeBatch m (batch.map samplePrompt)).getD i [] ++
          sampleContinuation m (encodeBatch m (batch.map samplePrompt)) i) ∧
    (ra = false → ∀ i, i < batch.length →
      ((run_generation m batch rl ra none).getD i default).logAttentions = none) ∧
    (rl = true → ∀ i, i < batch.length →
      ((run_generation m batch rl ra none).getD i default).scores =
        some (batchScores m (encodeBatch m (batch.map samplePrompt))) ∧
      ∀ t ∈ batchScores m (encodeBatch m (batch.map samplePrompt)),
        t.shape = [batch.length, m.vocabSize]) ∧
    (∀ ds, loadDataset env args = Except.ok ds →
      (mainRun env m args init).2 = Except.ok () →
      (mainRun env m args init).1.genCalls = (batchify args.batchSize ds).length) := by
  refine ⟨run_generation_length m batch rl ra none, ?_, ?_, ?_, ?_⟩
  · intro i hi
    exact (run_generation_getD m batch rl ra none i hi).1
  · intro hra i hi
    subst hra
    have h := (run_generation_getD m batch rl false none i hi).2.2.2.2
    simpa using h
  · intro hrl i hi
    constructor
    · subst hrl
      have h := (run_generation_getD m batch true ra none i hi).2.2.2.1
      simpa using h
    · intro t ht
      unfold batchScores at ht
      obtain ⟨step, -, rfl⟩ := List.mem_map.mp ht
      unfold stepScoresTensor
      have hlen : (encodeBatch m (batch.map samplePrompt)).length = batch.length := by
        rw [encodeBatch_length, List.length_map]
      rw [hlen]
  · intro ds hds hok
    have hmain : mainRun env m args init =
        runBatches env m args 0 (batchify args.batchSize ds) (initState init) :=
      @mainRun_eq_of_loadDataset env m args init ds hds
    have hrb : runBatches env m args 0 (batchify args.batchSize ds) (initState init) =
        ((mainRun env m args init).1, Except.ok ()) := by
      rw [← hok, ← hmain]
    have hcnt := (runBatches_ok_counters env m args (batchify args.batchSize ds) 0
      (initState init) (mainRun env m args init).1 hrb).2
    rw [hcnt]
    simp [initState]

/-- C5 amended witness: on the two-sample batch, the first item's scores
field is the shared batch-level tensor sequence; and the 5-sample,
batch-size-2 run issues exactly 3 generation calls. -/
theorem C5_witness :
    ((0 : Nat) < twoBatch.length) ∧
    ((run_generation demoModel twoBatch true false none).getD 0 default).scores =
      some (batchScores demoModel (encodeBatch demoModel (twoBatch.map samplePrompt))) ∧
    (mainRun (okEnv 5) demoModel (demoArgs "sampleqa" "sbert" 2) []).1.genCalls =
      (batchify 2 (demoSamples 5)).length :=
  ⟨by decide,
   ((C5_amended (okEnv 5) demoModel (demoArgs "sampleqa" "sbert" 2) [] twoBatch
     true false).2.2.2.1 rfl 0 (by decide)).1,
   (C5_amended (okEnv 5) demoModel (demoArgs "sampleqa" "sbert" 2) [] twoBatch
     true false).2.2.2.2 (demoSamples 5) (by decide) (by decide)⟩

/-- C9: every stabilized attention entry stored in `log_attentions` is the
elementwise clamp-then-log transform: the stored value for a raw weight
`w` is `log(1 + max(w, 1e-10))` (the spec's `log(1 + clamp(weight,
min=ε))`), which is strictly positive — in particular finite and neither
zero nor negative infinity — for every weight, including near-zero ones
such as 1e-12. -/
theorem C9_attention_stabilization (m : GenModel) (batch : List Sample) :
    (∀ a : AttnTensor, (stabilizeAttn a).clamped = a.data.map (fun w => max w attnEps)) ∧
    (∀ w : ℚ, stabValue (max w attnEps) =
        Real.log (1 + max ((w : ℝ)) ((1 : ℝ) / 10 ^ 10)) ∧
      0 < stabValue (max w attnEps)) ∧
    (∀ i, i < batch.length →
      ((run_generation m batch true true none).getD i default).logAttentions =
        some (batchLogAttn m (encodeBatch m (batch.map samplePrompt)))) ∧
    (∀ t ∈ batchLogAttn m (encodeBatch m (batch.map samplePrompt)),
      ∃ a : AttnTensor, t = stabilizeAttn a) := by
  refine ⟨fun a => rfl, ?_, ?_, ?_⟩
  · intro w
    constructor
    · unfold stabValue
      have hc : ((max w attnEps : ℚ) : ℝ) = max ((w : ℝ)) ((1 : ℝ) / 10 ^ 10) := by
        unfold attnEps
        push_cast
        norm_num
      rw [hc]
    · unfold stabValue
      apply Real.log_pos
      have h2 : (0 : ℚ) < max w attnEps :=
        lt_of_lt_of_le (by norm_num [attnEps]) (le_max_right w attnEps)
      have h1 : (0 : ℝ) < ((max w attnEps : ℚ) : ℝ) := by exact_mod_cast h2
      linarith
  · intro i hi
    have h := (run_generation_getD m batch true true none i hi).2.2.2.2
    simpa using h
  · intro t ht
    unfold batchLogAttn at ht
    obtain ⟨step, -, rfl⟩ := List.mem_map.mp ht
    exact ⟨m.stepAttn (encodeBatch m (batch.map samplePrompt)) step, rfl⟩

/-- C9 witness: the near-zero weight 1e-12 is clamped to 1e-10 and its
stored value is strictly positive; on the concrete two-sample batch with
attentions requested, the first item's `log_attentions` is exactly the
stabilized transform of the raw attention tensor holding 1e-12. -/
theorem C9_witness :
    (0 < stabValue (max ((1 : ℚ) / 10 ^ 12) attnEps)) ∧
    ((0 : Nat) < twoBatch.length) ∧
    ((run_generation demoModel twoBatch true true none).getD 0 default).logAttentions =
      some (batchLogAttn demoModel (encodeBatch demoModel (twoBatch.map samplePrompt))) ∧
    batchLogAttn demoModel (encodeBatch demoModel (twoBatch.map samplePrompt)) =
      [stabilizeAttn { shape := [1], data := [(1 : ℚ) / 10 ^ 12] }] :=
  ⟨((C9_attention_stabilization demoModel twoBatch).2.1 ((1 : ℚ) / 10 ^ 12)).2,
   by decide,
   (C9_attention_stabilization demoModel twoBatch).2.2.1 0 (by decide),
   rfl⟩

/-- C10: generation caps the output at the padded input width plus 64
tokens: every returned item's generated sequence extends its padded input
by at most 64 tokens, so the generated continuation, the per-step scores
list and the per-step attention list all have at most 64 entries. -/
theorem C10_generation_cap (m : GenModel) (batch : List Sample)
    (rl ra : Bool) (um : Option (List String)) :
    ∀ o ∈ run_generation m batch rl ra um,
      o.generatedIds.length ≤ o.inputIds.length + 64 ∧
      (o.generatedIds.drop o.inputIds.length).length ≤ 64 ∧
      (o.scores.getD []).length ≤ 64 ∧
      (o.logAttentions.getD []).length ≤ 64 := by
  intro o ho
  obtain ⟨i, hi, hin, hgen, hsc, hla⟩ := run_generation_mem ho
  have hcont : (sampleContinuation m (encodeBatch m (batch.map samplePrompt)) i).length ≤ 64 := by
    unfold sampleContinuation genSteps
    rw [List.length_map, List.length_range]
    omega
  refine ⟨?_, ?_, ?_, ?_⟩
  · rw [hgen, hin, List.length_append]
    omega
  · rw [hgen, hin, List.drop_left]
    exact hcont
  · rw [hsc]
    cases rl
    · simp
    · simp only [if_true]
      unfold batchScores genSteps
      rw [Option.getD_some, List.length_map, List.length_range]
      omega
  · rw [hla]
    cases ra
    · simp
    · simp only [if_true]
      unfold batchLogAttn genSteps
      rw [Option.getD_some, List.length_map, List.length_range]
      omega

/-- C10 witness: on the concrete two-sample batch the first item's
generated sequence exceeds its padded input by at most 64 tokens and its
per-step scores list has at most 64 entries. -/
theorem C10_witness :
    (((run_generation demoModel twoBatch true false none).getD 0 default) ∈
      run_generation demoModel twoBatch true false none) ∧
    ((run_generation demoModel twoBatch true false none).getD 0 default).generatedIds.length ≤
      ((run_generation demoModel twoBatch true false none).getD 0 default).inputIds.length + 64 ∧
    (((run_generation demoModel twoBatch true false none).getD 0 default).scores.getD []).length ≤ 64 :=
  ⟨by decide,
   (C10_generation_cap demoModel twoBatch true false none
     ((run_generation demoModel twoBatch true false none).getD 0 default) (by decide)).1,
   (C10_generation_cap demoModel twoBatch true false none
     ((run_generation demoModel twoBatch true false none).getD 0 default) (by decide)).2.2.1⟩
